import Mathlib

/-!
Verification development for the Heroku AppLink org-job worker
(Node.js). Shallow embedding of the worker services:

* `src/server/services/data.js`   — bulk data job handler
  (`generateSampleOpportunities`, `generateSampleOLIs`,
  `pollBulkJobStatus`, the create-flow gate before the dependent
  OLI bulk stage).
* `src/server/services/quote.js`  — transactional quote handler
  (`getDiscountForRegion`, `queryAll`, the per-opportunity
  registration loop of `handleQuoteMessage`).
* the worker dispatcher (`handleJobMessage`) — envelope parsing,
  security-context validation and routing.

JavaScript numbers that the claims care about are embedded as `Nat`
(counts, ids) or `Rat` (prices, discount rates, `Math.random`
outcomes); fallible calls are embedded as `Option`/`Except` values;
external nondeterminism (poll responses, query pages, random draws)
is passed in as explicit oracle arguments.
-/

namespace OrgJob

/-! ## Bulk API poll loop (`src/server/services/data.js`, lines 3-5 and 59-95) -/

/-- `BULK_API_POLL_INTERVAL = 5000` ms (data.js line 4). -/
def BULK_API_POLL_INTERVAL : Nat := 5000

/-- `BULK_API_TIMEOUT = 300000` ms (data.js line 5). -/
def BULK_API_TIMEOUT : Nat := 300000

/-- The fields of the job-info object returned by `bulkApi.getInfo`
that the handler reads: `state`, `errorMessage`,
`numberRecordsProcessed`, `numberRecordsFailed`. -/
structure JobInfo where
  state : String
  errorMessage : String
  numberRecordsProcessed : Nat
  numberRecordsFailed : Nat
  deriving Repr, DecidableEq

/-- Outcome of one `await bulkApi.getInfo(jobReference)` call:
either the promise rejects (a transport error carrying a message), or
it resolves to a value, where `none` models JavaScript `undefined`. -/
inductive GetInfoOutcome where
  | throwErr (msg : String)
  | ret (info : Option JobInfo)
  deriving Repr, DecidableEq

/-- Result of `pollBulkJobStatus`: the returned job info on normal
return, or the message of the raised `Error`. -/
inductive PollResult where
  | success (info : JobInfo)
  | error (msg : String)
  deriving Repr, DecidableEq

/-- One observed state is "running" when `getInfo` resolved to a
defined job info whose state is none of `JobComplete`, `Failed`,
`Aborted`: the loop body falls through to the 5-second sleep. -/
def IsRunning (o : GetInfoOutcome) : Prop :=
  ∃ info : JobInfo, o = GetInfoOutcome.ret (some info) ∧
    info.state ≠ "JobComplete" ∧ info.state ≠ "Failed" ∧ info.state ≠ "Aborted"

instance (o : GetInfoOutcome) : Decidable (IsRunning o) := by
  unfold IsRunning
  match o with
  | GetInfoOutcome.throwErr m =>
      exact isFalse (by rintro ⟨i, h, -⟩; cases h)
  | GetInfoOutcome.ret none =>
      exact isFalse (by rintro ⟨i, h, -⟩; cases h)
  | GetInfoOutcome.ret (some i) =>
      exact decidable_of_iff
        (i.state ≠ "JobComplete" ∧ i.state ≠ "Failed" ∧ i.state ≠ "Aborted")
        (by constructor
            · intro h; exact ⟨i, rfl, h⟩
            · rintro ⟨j, hj, h⟩; cases hj; exact h)

/-- The body of the `while` loop of `pollBulkJobStatus`
(data.js lines 66-90), iterated over the remaining poll budget.
`outcomes i` is the result of the `i`-th `bulkApi.getInfo` call.
The wall-clock guard `Date.now() - startTime < BULK_API_TIMEOUT`
together with the fixed 5000 ms sleep at the end of each iteration
admits at most `BULK_API_TIMEOUT / BULK_API_POLL_INTERVAL` poll
iterations (polls themselves taken as instantaneous), which is the
`fuel` argument; exhausting it is the timeout exit of line 94. -/
def pollFrom (jobId : String) (outcomes : Nat → GetInfoOutcome) :
    Nat → Nat → PollResult
  | _, 0 => PollResult.error ("Timeout polling Bulk API Job " ++ jobId)
  | i, fuel + 1 =>
    match outcomes i with
    | GetInfoOutcome.throwErr msg => PollResult.error msg
    | GetInfoOutcome.ret none =>
        PollResult.error ("bulkApi.getInfo(" ++ jobId ++ ") returned undefined.")
    | GetInfoOutcome.ret (some info) =>
        if info.state = "JobComplete" then PollResult.success info
        else if info.state = "Failed" ∨ info.state = "Aborted" then
          PollResult.error
            ("Bulk API Job " ++ jobId ++ " failed or aborted: " ++ info.state)
        else pollFrom jobId outcomes (i + 1) fuel

/-- Maximal number of poll iterations the wall clock admits. -/
def maxPolls : Nat := BULK_API_TIMEOUT / BULK_API_POLL_INTERVAL

/-- `pollBulkJobStatus` (data.js lines 59-95) as a function of the job
reference id and the sequence of `getInfo` outcomes. -/
def pollBulkJobStatus (jobId : String) (outcomes : Nat → GetInfoOutcome) :
    PollResult :=
  pollFrom jobId outcomes 0 maxPolls

/-- Substring test on character lists: `containsSeq needle hay` holds
when `needle` occurs contiguously inside `hay`. Used to state what a
raised error message does or does not include. -/
def containsSeq (needle hay : List Char) : Bool :=
  (List.range (hay.length + 1)).any (fun i => needle.isPrefixOf (hay.drop i))

/-- While every observed outcome is a running state, the loop only
advances: polling at index `i` with `k + fuel` budget is polling at
index `i + k` with `fuel` budget. -/
theorem pollFrom_skip (jobId : String) (outcomes : Nat → GetInfoOutcome)
    (k : Nat) :
    ∀ (i fuel : Nat), (∀ j, j < k → IsRunning (outcomes (i + j))) →
      pollFrom jobId outcomes i (k + fuel) = pollFrom jobId outcomes (i + k) fuel := by
  induction k with
  | zero => intro i fuel _; simp
  | succ k ih =>
    intro i fuel hrun
    obtain ⟨info, heq, h1, h2, h3⟩ : IsRunning (outcomes i) := by
      simpa using hrun 0 (Nat.succ_pos k)
    have hstep : pollFrom jobId outcomes i (k + 1 + fuel) =
        pollFrom jobId outcomes (i + 1) (k + fuel) := by
      have : k + 1 + fuel = (k + fuel) + 1 := by omega
      rw [this]
      simp only [pollFrom, heq]
      rw [if_neg h1, if_neg (by simp [h2, h3])]
    rw [hstep, ih (i + 1) fuel (fun j hj => by
      have := hrun (j + 1) (by omega)
      simpa [Nat.add_assoc, Nat.add_comm 1 j] using this)]
    congr 1
    omega

/-- `pollFrom` returns successfully only with a `JobComplete` info. -/
theorem pollFrom_success_state (jobId : String)
    (outcomes : Nat → GetInfoOutcome) :
    ∀ (fuel i : Nat) (info : JobInfo),
      pollFrom jobId outcomes i fuel = PollResult.success info →
      info.state = "JobComplete" := by
  intro fuel
  induction fuel with
  | zero => intro i info h; exact absurd h (by simp [pollFrom])
  | succ fuel ih =>
    intro i info h
    simp only [pollFrom] at h
    split at h
    · exact absurd h (by simp)
    · exact absurd h (by simp)
    · split at h
      · rename_i hc
        cases h
        exact hc
      · split at h
        · exact absurd h (by simp)
        · exact ih (i + 1) info h

/-- If the first `i` observed outcomes are running states, the whole
poll run equals the run starting at index `i` with the remaining
budget. -/
theorem pollBulkJobStatus_reach (jobId : String)
    (outcomes : Nat → GetInfoOutcome) (i : Nat) (hi : i ≤ maxPolls)
    (hrun : ∀ j, j < i → IsRunning (outcomes j)) :
    pollBulkJobStatus jobId outcomes = pollFrom jobId outcomes i (maxPolls - i) := by
  unfold pollBulkJobStatus
  have h1 : maxPolls = i + (maxPolls - i) := by omega
  have h2 := pollFrom_skip jobId outcomes i 0 (maxPolls - i)
    (fun j hj => by simpa using hrun j hj)
  conv_lhs => rw [h1]
  simpa using h2

/-- Constant sequence of `InProgress` poll responses. -/
def c1RunOutcomes : Nat → GetInfoOutcome :=
  fun _ => GetInfoOutcome.ret (some ⟨"InProgress", "", 0, 0⟩)

/-- Constant sequence of `Failed` poll responses whose external error
message is `boom`. -/
def c1FailOutcomes : Nat → GetInfoOutcome :=
  fun _ => GetInfoOutcome.ret (some ⟨"Failed", "boom", 0, 0⟩)

/-- C1, counterexample to the claim as stated: when the observed state
is `Failed` with external error message `boom`, the error raised by
`pollBulkJobStatus` is built from the job id and the state only; the
external error message `boom` is logged but does not occur in the
raised error message. -/
theorem c1_error_message_not_included :
    pollBulkJobStatus "750" c1FailOutcomes =
      PollResult.error "Bulk API Job 750 failed or aborted: Failed" ∧
    containsSeq "boom".data "Bulk API Job 750 failed or aborted: Failed".data
      = false := by
  constructor
  · decide
  · decide

/-- C1 (amended): the poll budget is a fixed 5000 ms interval against a
300000 ms wall clock, admitting `maxPolls = 60` status fetches; if every
fetch within the budget observes a running state the result is the
Timeout error tagged with the job reference id; the operation returns
successfully exactly when a `JobComplete` state is observed; observing
`Failed` or `Aborted` raises an error naming the job id and the observed
terminal state (the external error message is logged, not included);
a transport error while polling is propagated verbatim, not retried. -/
theorem c1_poll_loop (jobId : String) (outcomes : Nat → GetInfoOutcome) :
    (BULK_API_POLL_INTERVAL = 5000 ∧ BULK_API_TIMEOUT = 300000 ∧
      maxPolls * BULK_API_POLL_INTERVAL = BULK_API_TIMEOUT) ∧
    ((∀ j, j < maxPolls → IsRunning (outcomes j)) →
      pollBulkJobStatus jobId outcomes =
        PollResult.error ("Timeout polling Bulk API Job " ++ jobId)) ∧
    (∀ info, pollBulkJobStatus jobId outcomes = PollResult.success info →
      info.state = "JobComplete") ∧
    (∀ i info, i < maxPolls → (∀ j, j < i → IsRunning (outcomes j)) →
      outcomes i = GetInfoOutcome.ret (some info) →
      info.state = "JobComplete" →
      pollBulkJobStatus jobId outcomes = PollResult.success info) ∧
    (∀ i info, i < maxPolls → (∀ j, j < i → IsRunning (outcomes j)) →
      outcomes i = GetInfoOutcome.ret (some info) →
      (info.state = "Failed" ∨ info.state = "Aborted") →
      pollBulkJobStatus jobId outcomes =
        PollResult.error
          ("Bulk API Job " ++ jobId ++ " failed or aborted: " ++ info.state)) ∧
    (∀ i msg, i < maxPolls → (∀ j, j < i → IsRunning (outcomes j)) →
      outcomes i = GetInfoOutcome.throwErr msg →
      pollBulkJobStatus jobId outcomes = PollResult.error msg) := by
  refine ⟨⟨rfl, rfl, rfl⟩, ?_, ?_, ?_, ?_, ?_⟩
  · intro h
    rw [pollBulkJobStatus_reach jobId outcomes maxPolls le_rfl h]
    simp [pollFrom]
  · intro info h
    exact pollFrom_success_state jobId outcomes maxPolls 0 info h
  · intro i info hi hrun hout hstate
    rw [pollBulkJobStatus_reach jobId outcomes i (le_of_lt hi) hrun]
    have hfuel : maxPolls - i = (maxPolls - i - 1) + 1 := by omega
    rw [hfuel]
    simp [pollFrom, hout, hstate]
  · intro i info hi hrun hout hstate
    rw [pollBulkJobStatus_reach jobId outcomes i (le_of_lt hi) hrun]
    have hfuel : maxPolls - i = (maxPolls - i - 1) + 1 := by omega
    rw [hfuel]
    have hne : info.state ≠ "JobComplete" := by
      rcases hstate with h | h <;> simp [h]
    simp [pollFrom, hout, hne, hstate]
  · intro i msg hi hrun hout
    rw [pollBulkJobStatus_reach jobId outcomes i (le_of_lt hi) hrun]
    have hfuel : maxPolls - i = (maxPolls - i - 1) + 1 := by omega
    rw [hfuel]
    simp [pollFrom, hout]

/-- C1 witness: the amended theorem applied at concrete inputs — a run
that only ever observes `InProgress` times out with the job id in the
message, and a first fetch observing `JobComplete` returns it. -/
theorem c1_poll_loop_witness :
    pollBulkJobStatus "750" c1RunOutcomes =
      PollResult.error ("Timeout polling Bulk API Job " ++ "750") ∧
    pollBulkJobStatus "750"
        (fun _ => GetInfoOutcome.ret (some ⟨"JobComplete", "", 3, 1⟩)) =
      PollResult.success ⟨"JobComplete", "", 3, 1⟩ := by
  constructor
  · exact (c1_poll_loop "750" c1RunOutcomes).2.1
      (fun j _ => ⟨⟨"InProgress", "", 0, 0⟩, rfl, by decide, by decide, by decide⟩)
  · exact (c1_poll_loop "750" _).2.2.2.1 0 ⟨"JobComplete", "", 3, 1⟩
      (by decide) (fun j hj => absurd hj (Nat.not_lt_zero j)) rfl rfl

/-! ## Synthetic opportunity generation
(`src/server/services/data.js`, lines 9-22 and 157-169) -/

/-- Decimal digit character, as JavaScript template interpolation
renders the digits of a nonnegative integer. -/
def digitChar (n : Nat) : Char :=
  if n = 0 then '0' else if n = 1 then '1' else if n = 2 then '2'
  else if n = 3 then '3' else if n = 4 then '4' else if n = 5 then '5'
  else if n = 6 then '6' else if n = 7 then '7' else if n = 8 then '8'
  else if n = 9 then '9' else '0'

/-- Decimal rendering of a natural number as a character list,
most significant digit first — the JavaScript string interpolation
of an integer-valued number. -/
def natDigits (n : Nat) : List Char :=
  if n < 10 then [digitChar n]
  else natDigits (n / 10) ++ [digitChar (n % 10)]
decreasing_by exact Nat.div_lt_self (by omega) (by omega)

/-- Decimal rendering of a natural number as a string. -/
def natRepr (n : Nat) : String := String.mk (natDigits n)

theorem digitChar_ne_dash (n : Nat) : digitChar n ≠ '-' := by
  unfold digitChar
  split_ifs <;> decide

theorem digitChar_inj :
    ∀ m, m < 10 → ∀ n, n < 10 → digitChar m = digitChar n → m = n := by
  decide

theorem natDigits_lt (n : Nat) (h : n < 10) : natDigits n = [digitChar n] := by
  conv_lhs => rw [natDigits]
  rw [if_pos h]

theorem natDigits_ge (n : Nat) (h : ¬ n < 10) :
    natDigits n = natDigits (n / 10) ++ [digitChar (n % 10)] := by
  conv_lhs => rw [natDigits]
  rw [if_neg h]

theorem natDigits_ne_nil (n : Nat) : natDigits n ≠ [] := by
  by_cases h : n < 10
  · rw [natDigits_lt n h]; simp
  · rw [natDigits_ge n h]; simp

theorem dash_not_mem_natDigits (n : Nat) : '-' ∉ natDigits n := by
  induction n using Nat.strong_induction_on with
  | _ n ih =>
    by_cases hlt : n < 10
    · rw [natDigits_lt n hlt]
      intro hmem
      have : '-' = digitChar n := by simpa using hmem
      exact digitChar_ne_dash n this.symm
    · rw [natDigits_ge n hlt]
      intro hmem
      rcases List.mem_append.mp hmem with h | h
      · exact ih (n / 10) (Nat.div_lt_self (by omega) (by omega)) h
      · have : '-' = digitChar (n % 10) := by simpa using h
        exact digitChar_ne_dash (n % 10) this.symm

theorem natDigits_inj : ∀ m n : Nat, natDigits m = natDigits n → m = n := by
  intro m
  induction m using Nat.strong_induction_on with
  | _ m ih =>
    intro n h
    by_cases hm : m < 10 <;> by_cases hn : n < 10
    · rw [natDigits_lt m hm, natDigits_lt n hn] at h
      simp only [List.cons.injEq, and_true] at h
      exact digitChar_inj m hm n hn h
    · rw [natDigits_lt m hm, natDigits_ge n hn] at h
      have hlen := congrArg List.length h
      have hpos := List.length_pos.mpr (natDigits_ne_nil (n / 10))
      simp only [List.length_cons, List.length_append, List.length_nil] at hlen
      omega
    · rw [natDigits_ge m hm, natDigits_lt n hn] at h
      have hlen := congrArg List.length h
      have hpos := List.length_pos.mpr (natDigits_ne_nil (m / 10))
      simp only [List.length_cons, List.length_append, List.length_nil] at hlen
      omega
    · rw [natDigits_ge m hm, natDigits_ge n hn] at h
      have hrev := congrArg List.reverse h
      simp only [List.reverse_append, List.reverse_cons, List.reverse_nil,
        List.nil_append, List.singleton_append, List.cons.injEq] at hrev
      obtain ⟨hhead, htail⟩ := hrev
      have hdiv : m / 10 = n / 10 :=
        ih (m / 10) (Nat.div_lt_self (by omega) (by omega)) (n / 10)
          (List.reverse_injective htail)
      have hmod : m % 10 = n % 10 :=
        digitChar_inj (m % 10) (Nat.mod_lt m (by omega)) (n % 10)
          (Nat.mod_lt n (by omega)) hhead
      omega

/-- If a separator character occurs in neither left part, splitting at
its first occurrence is unambiguous. -/
theorem append_sep_inj (x : Char) :
    ∀ (a b a' b' : List Char), x ∉ a → x ∉ b →
      a ++ x :: a' = b ++ x :: b' → a = b ∧ a' = b' := by
  intro a
  induction a with
  | nil =>
    intro b a' b' _ hb h
    cases b with
    | nil => simpa using h
    | cons c bs =>
      simp only [List.nil_append, List.cons_append, List.cons.injEq] at h
      exact absurd (by simp [h.1]) hb
  | cons c as ih =>
    intro b a' b' ha hb h
    cases b with
    | nil =>
      simp only [List.cons_append, List.nil_append, List.cons.injEq] at h
      exact absurd (by simp [h.1]) ha
    | cons d bs =>
      simp only [List.cons_append, List.cons.injEq] at h
      obtain ⟨hcd, htl⟩ := h
      obtain ⟨h1, h2⟩ := ih bs a' b' (fun hx => ha (List.mem_cons_of_mem c hx))
        (fun hx => hb (List.mem_cons_of_mem d hx)) htl
      exact ⟨by rw [hcd, h1], h2⟩

/-- The synthetic parent-row name of data.js line 14:
`Sample Opp <Date.now()>-<i>`, where `now` is the `Date.now()` value
observed while building row `i`. -/
def sampleOppName (now i : Nat) : String :=
  "Sample Opp " ++ natRepr now ++ "-" ++ natRepr i

/-- A generated parent row (`generateSampleOpportunities`,
data.js lines 9-22). -/
structure Opportunity where
  Name : String
  AccountId : String
  StageName : String
  CloseDate : String
  Pricebook2Id : String
  deriving Repr, DecidableEq

/-- `generateSampleOpportunities` (data.js lines 9-22). `now i` is the
`Date.now()` reading and `closeDate i` the rendered close date of
iteration `i`. -/
def generateSampleOpportunities (count : Nat) (accountId pricebookId : String)
    (now : Nat → Nat) (closeDate : Nat → String) : List Opportunity :=
  (List.range count).map (fun i =>
    { Name := sampleOppName (now i) i
      AccountId := accountId
      StageName := "Prospecting"
      CloseDate := closeDate i
      Pricebook2Id := pricebookId })

/-- `const { jobId, operation, count = 10 } = jobData`
(data.js line 108): an absent count defaults to 10. -/
def resolveCount (count : Option Nat) : Nat := count.getD 10

/-- One row of the submitted bulk data table (data.js lines 161-166):
the row map built over the columns of the first generated object. -/
def oppToRow (o : Opportunity) : List (String × String) :=
  [("Name", o.Name), ("AccountId", o.AccountId), ("StageName", o.StageName),
   ("CloseDate", o.CloseDate), ("Pricebook2Id", o.Pricebook2Id)]

/-- The parent bulk data table submitted to `bulkApi.ingest`
(data.js lines 159-169). -/
def buildOppDataTable (count : Option Nat) (accountId pricebookId : String)
    (now : Nat → Nat) (closeDate : Nat → String) : List (List (String × String)) :=
  (generateSampleOpportunities (resolveCount count) accountId pricebookId
    now closeDate).map oppToRow

theorem sampleOppName_inj (t u i j : Nat) (hij : i ≠ j) :
    sampleOppName t i ≠ sampleOppName u j := by
  intro h
  have hdata := congrArg String.data h
  simp only [sampleOppName, natRepr, String.data_append, List.append_assoc,
    List.singleton_append] at hdata
  have hsplit : natDigits t ++ '-' :: natDigits i =
      natDigits u ++ '-' :: natDigits j :=
    List.append_cancel_left hdata
  obtain ⟨-, htail⟩ := append_sep_inj '-' (natDigits t) (natDigits u)
    (natDigits i) (natDigits j) (dash_not_mem_natDigits t)
    (dash_not_mem_natDigits u) hsplit
  exact hij (natDigits_inj i j htail)

theorem oppToRow_lookup_name (o : Opportunity) :
    (oppToRow o).lookup "Name" = some o.Name := rfl

/-- C6: for every data/create job the caller-supplied count is used as
is and an absent count defaults to 10; for every count `N ≥ 1` the
parent bulk table submitted to the bulk-write capability contains
exactly `N` rows, and the `Name` cell of every row is distinct from the
`Name` cell of every other row of the batch. -/
theorem c6_bulk_table_rows (count : Option Nat) (accountId pricebookId : String)
    (now : Nat → Nat) (closeDate : Nat → String) :
    (count = none → resolveCount count = 10) ∧
    (∀ n, count = some n → resolveCount count = n) ∧
    (1 ≤ resolveCount count →
      (buildOppDataTable count accountId pricebookId now closeDate).length =
        resolveCount count ∧
      ((buildOppDataTable count accountId pricebookId now closeDate).map
          (fun row => row.lookup "Name")).Pairwise (· ≠ ·)) := by
  refine ⟨fun h => by simp [resolveCount, h],
    fun n h => by simp [resolveCount, h], fun _ => ⟨?_, ?_⟩⟩
  · simp [buildOppDataTable, generateSampleOpportunities]
  · simp only [buildOppDataTable, generateSampleOpportunities, List.map_map]
    rw [List.pairwise_map]
    refine (List.pairwise_lt_range _).imp ?_
    intro a b hlt
    simp only [Function.comp_apply, oppToRow_lookup_name, ne_eq,
      Option.some.injEq]
    exact sampleOppName_inj (now a) (now b) a b (Nat.ne_of_lt hlt)

/-- C6 witness: the theorem applied to a concrete job with
`count = 3`. -/
theorem c6_bulk_table_rows_witness :
    (buildOppDataTable (some 3) "001A" "01sA" (fun _ => 1700000000000)
        (fun _ => "2026-01-01")).length = resolveCount (some 3) ∧
    ((buildOppDataTable (some 3) "001A" "01sA" (fun _ => 1700000000000)
        (fun _ => "2026-01-01")).map
      (fun row => row.lookup "Name")).Pairwise (· ≠ ·) :=
  (c6_bulk_table_rows (some 3) "001A" "01sA" (fun _ => 1700000000000)
    (fun _ => "2026-01-01")).2.2 (by decide)

/-! ## Synthetic OLI generation (`src/server/services/data.js`, lines 24-55)
and the dependent-stage gate (lines 183-259) -/

/-- JavaScript truthiness of an optional string value: a missing or
`undefined` field and the empty string are falsy. -/
def truthy (s : Option String) : Bool :=
  match s with
  | none => false
  | some str => str != ""

/-- A pricebook entry as resolved by the prerequisite query
(data.js line 153): the `Id` and `Product2Id` fields may be missing. -/
structure PricebookEntry where
  Id : Option String
  Product2Id : Option String
  deriving Repr, DecidableEq

/-- A generated opportunity line item (data.js lines 40-46). -/
structure OLI where
  OpportunityId : String
  PricebookEntryId : String
  Product2Id : String
  Quantity : Nat
  UnitPrice : Nat
  deriving Repr, DecidableEq

/-- `FIXED_OLI_COUNT = 2` (data.js line 26). -/
def FIXED_OLI_COUNT : Nat := 2

/-- One iteration of the inner loop of `generateSampleOLIs`
(data.js lines 33-52): `entryIndex = Math.floor(Math.random() * len)`,
read the entry at that index, and push an OLI only when the entry is
present with truthy `Id` and `Product2Id`; otherwise skip with a
warning. `re`, `rq`, `rp` are the three `Math.random()` draws of the
iteration (entry pick, quantity, unit price). -/
def mkOLI (oppId : String) (entries : List PricebookEntry)
    (re rq rp : ℚ) : Option OLI :=
  match entries[⌊re * entries.length⌋₊]? with
  | none => none
  | some pbe =>
    if truthy pbe.Id ∧ truthy pbe.Product2Id then
      some { OpportunityId := oppId
             PricebookEntryId := pbe.Id.getD ""
             Product2Id := pbe.Product2Id.getD ""
             Quantity := ⌊rq * 10⌋₊ + 1
             UnitPrice := ⌊rp * 100⌋₊ + 10 }
    else none

/-- The `FIXED_OLI_COUNT` inner iterations for one parent id. -/
def genOLIsFor (oppId : String) (entries : List PricebookEntry)
    (re rq rp : Nat → ℚ) : List OLI :=
  (List.range FIXED_OLI_COUNT).filterMap
    (fun i => mkOLI oppId entries (re i) (rq i) (rp i))

/-- The `createdOppIds.forEach` loop of data.js lines 31-53; `k` counts
the parent ids already processed so each iteration draws fresh
randomness. -/
def genOLIsAux (entries : List PricebookEntry) (re rq rp : Nat → Nat → ℚ) :
    List String → Nat → List OLI
  | [], _ => []
  | oppId :: rest, k =>
      genOLIsFor oppId entries (re k) (rq k) (rp k) ++
        genOLIsAux entries re rq rp rest (k + 1)

/-- `generateSampleOLIs` (data.js lines 24-55). -/
def generateSampleOLIs (createdOppIds : List String)
    (entries : List PricebookEntry) (re rq rp : Nat → Nat → ℚ) : List OLI :=
  if createdOppIds.isEmpty || entries.isEmpty then []
  else genOLIsAux entries re rq rp createdOppIds 0

/-- A pricebook entry that passes the truthiness test of
data.js line 39. -/
def ValidPBE (e : PricebookEntry) : Prop :=
  truthy e.Id = true ∧ truthy e.Product2Id = true

/-- `successfulRecords.map(rec => rec.get('sf__Id')).filter(id => id)`
(data.js line 205): keep the truthy extracted ids. -/
def extractSuccessfulIds (recs : List (Option String)) : List String :=
  recs.filterMap (fun r => if truthy r then r else none)

/-- The create-flow tail of `handleDataMessage` after the parent bulk
poll (data.js lines 183-259), reduced to whether the dependent OLI bulk
submission (`bulkApi.ingest` for `OpportunityLineItem`, line 231) is
reached: a poll error propagates (the stage is skipped); a parent job
with zero processed rows or with all processed rows failed returns
early (line 195); a failure to fetch successful results returns early
(line 209); an empty extracted id list returns early (line 212); an
empty generated OLI list skips the submission (line 220). -/
def oliStageAttempted (parentPoll : PollResult)
    (successFetch : Except String (List (Option String)))
    (entries : List PricebookEntry) (re rq rp : Nat → Nat → ℚ) : Bool :=
  match parentPoll with
  | PollResult.error _ => false
  | PollResult.success info =>
    if info.numberRecordsProcessed = 0 ∨
        info.numberRecordsProcessed = info.numberRecordsFailed then false
    else
      match successFetch with
      | Except.error _ => false
      | Except.ok recs =>
        if (extractSuccessfulIds recs).length = 0 then false
        else !(generateSampleOLIs (extractSuccessfulIds recs) entries
                re rq rp).isEmpty

theorem truthy_eq_some (o : Option String) (h : truthy o = true) :
    o = some (o.getD "") := by
  cases o with
  | none => cases h
  | some s => rfl

/-- With a nonempty entry list, a valid random draw and all entries
valid, one inner iteration always pushes an OLI built from an entry of
the list. -/
theorem mkOLI_valid (oppId : String) (entries : List PricebookEntry)
    (re rq rp : ℚ) (hne : entries ≠ [])
    (hvalid : ∀ e ∈ entries, ValidPBE e)
    (h0 : 0 ≤ re) (h1 : re < 1) :
    ∃ pbe ∈ entries, mkOLI oppId entries re rq rp =
      some { OpportunityId := oppId
             PricebookEntryId := pbe.Id.getD ""
             Product2Id := pbe.Product2Id.getD ""
             Quantity := ⌊rq * 10⌋₊ + 1
             UnitPrice := ⌊rp * 100⌋₊ + 10 } := by
  have hlen : 0 < entries.length := List.length_pos.mpr hne
  have hcast : (0 : ℚ) < entries.length := by exact_mod_cast hlen
  have hmul : re * (entries.length : ℚ) < entries.length := by
    calc re * (entries.length : ℚ) < 1 * entries.length :=
          mul_lt_mul_of_pos_right h1 hcast
      _ = entries.length := one_mul _
  have hidx : ⌊re * (entries.length : ℚ)⌋₊ < entries.length := by
    rw [Nat.floor_lt (mul_nonneg h0 (le_of_lt hcast))]
    exact hmul
  have hget : entries[⌊re * (entries.length : ℚ)⌋₊]? =
      some (entries[⌊re * (entries.length : ℚ)⌋₊]) :=
    List.getElem?_eq_getElem hidx
  have hmem : entries[⌊re * (entries.length : ℚ)⌋₊] ∈ entries :=
    List.getElem_mem hidx
  obtain ⟨hid, hpid⟩ := hvalid _ hmem
  refine ⟨entries[⌊re * (entries.length : ℚ)⌋₊], hmem, ?_⟩
  simp [mkOLI, hget, hid, hpid]

/-- The two inner iterations for one parent id produce exactly two
OLIs, both referencing entries of the resolved list. -/
theorem genOLIsFor_spec (oppId : String) (entries : List PricebookEntry)
    (re rq rp : Nat → ℚ) (hne : entries ≠ [])
    (hvalid : ∀ e ∈ entries, ValidPBE e)
    (hr : ∀ i, 0 ≤ re i ∧ re i < 1) :
    (genOLIsFor oppId entries re rq rp).length = 2 ∧
    ∀ oli ∈ genOLIsFor oppId entries re rq rp,
      oli.OpportunityId = oppId ∧
      ∃ pbe ∈ entries, pbe.Id = some oli.PricebookEntryId ∧
        pbe.Product2Id = some oli.Product2Id := by
  obtain ⟨p0, hm0, he0⟩ := mkOLI_valid oppId entries (re 0) (rq 0) (rp 0)
    hne hvalid (hr 0).1 (hr 0).2
  obtain ⟨p1, hm1, he1⟩ := mkOLI_valid oppId entries (re 1) (rq 1) (rp 1)
    hne hvalid (hr 1).1 (hr 1).2
  have hrange : List.range FIXED_OLI_COUNT = [0, 1] := rfl
  have hfor : genOLIsFor oppId entries re rq rp =
      [{ OpportunityId := oppId
         PricebookEntryId := p0.Id.getD ""
         Product2Id := p0.Product2Id.getD ""
         Quantity := ⌊rq 0 * 10⌋₊ + 1
         UnitPrice := ⌊rp 0 * 100⌋₊ + 10 },
       { OpportunityId := oppId
         PricebookEntryId := p1.Id.getD ""
         Product2Id := p1.Product2Id.getD ""
         Quantity := ⌊rq 1 * 10⌋₊ + 1
         UnitPrice := ⌊rp 1 * 100⌋₊ + 10 }] := by
    simp [genOLIsFor, hrange, he0, he1]
  rw [hfor]
  refine ⟨rfl, ?_⟩
  intro oli holi
  rcases List.mem_cons.mp holi with h | h
  · subst h
    exact ⟨rfl, p0, hm0, truthy_eq_some p0.Id (hvalid p0 hm0).1,
      truthy_eq_some p0.Product2Id (hvalid p0 hm0).2⟩
  · rcases List.mem_cons.mp h with h' | h'
    · subst h'
      exact ⟨rfl, p1, hm1, truthy_eq_some p1.Id (hvalid p1 hm1).1,
        truthy_eq_some p1.Product2Id (hvalid p1 hm1).2⟩
    · cases h'

/-- The forEach loop over parent ids: two OLIs per parent id, each
referencing a resolved entry; counted both in total and per parent
id. -/
theorem genOLIsAux_spec (entries : List PricebookEntry)
    (re rq rp : Nat → Nat → ℚ) (hne : entries ≠ [])
    (hvalid : ∀ e ∈ entries, ValidPBE e)
    (hr : ∀ k i, 0 ≤ re k i ∧ re k i < 1) :
    ∀ (ids : List String) (k : Nat),
      (genOLIsAux entries re rq rp ids k).length = 2 * ids.length ∧
      (∀ oli ∈ genOLIsAux entries re rq rp ids k,
        oli.OpportunityId ∈ ids ∧
        ∃ pbe ∈ entries, pbe.Id = some oli.PricebookEntryId ∧
          pbe.Product2Id = some oli.Product2Id) ∧
      (∀ id : String, (genOLIsAux entries re rq rp ids k).countP
          (fun o => o.OpportunityId == id) = 2 * ids.count id) := by
  intro ids
  induction ids with
  | nil =>
    intro k
    refine ⟨rfl, by simp [genOLIsAux], by simp [genOLIsAux]⟩
  | cons oppId rest ih =>
    intro k
    obtain ⟨hlen, hmem, hcount⟩ := ih (k + 1)
    obtain ⟨hflen, hfmem⟩ := genOLIsFor_spec oppId entries (re k) (rq k) (rp k)
      hne hvalid (fun i => hr k i)
    refine ⟨?_, ?_, ?_⟩
    · simp only [genOLIsAux, List.length_append, hflen, hlen,
        List.length_cons]
      omega
    · intro oli holi
      rcases List.mem_append.mp holi with h | h
      · obtain ⟨hop, hpbe⟩ := hfmem oli h
        exact ⟨by simp [hop], hpbe⟩
      · obtain ⟨hop, hpbe⟩ := hmem oli h
        exact ⟨List.mem_cons_of_mem _ hop, hpbe⟩
    · intro id
      have happ : genOLIsAux entries re rq rp (oppId :: rest) k =
          genOLIsFor oppId entries (re k) (rq k) (rp k) ++
            genOLIsAux entries re rq rp rest (k + 1) := rfl
      rw [happ, List.countP_append, hcount id]
      by_cases hid : oppId = id
      · have hall : (genOLIsFor oppId entries (re k) (rq k) (rp k)).countP
            (fun o => o.OpportunityId == id) =
            (genOLIsFor oppId entries (re k) (rq k) (rp k)).length := by
          rw [List.countP_eq_length]
          intro o ho
          simp [(hfmem o ho).1, hid]
        rw [hall, hflen]
        simp [List.count_cons, hid]
        omega
      · have hzero : (genOLIsFor oppId entries (re k) (rq k) (rp k)).countP
            (fun o => o.OpportunityId == id) = 0 := by
          rw [List.countP_eq_zero]
          intro o ho
          simp [(hfmem o ho).1, hid]
        rw [hzero]
        simp [List.count_cons, hid]

/-- C7: for every nonempty list of successfully created parent ids and
every nonempty resolved entry list whose entries all carry truthy `Id`
and `Product2Id`, `generateSampleOLIs` produces exactly
`FIXED_OLI_COUNT = 2` dependent rows per parent id (both in total and
counted per parent id), each referencing an entry drawn from the
resolved list at the random index of its iteration. -/
theorem c7_oli_generation (ids : List String) (entries : List PricebookEntry)
    (re rq rp : Nat → Nat → ℚ) (hids : ids ≠ []) (hne : entries ≠ [])
    (hvalid : ∀ e ∈ entries, ValidPBE e)
    (hr : ∀ k i, 0 ≤ re k i ∧ re k i < 1) :
    (generateSampleOLIs ids entries re rq rp).length =
      FIXED_OLI_COUNT * ids.length ∧
    (∀ oli ∈ generateSampleOLIs ids entries re rq rp,
      oli.OpportunityId ∈ ids ∧
      ∃ pbe ∈ entries, pbe.Id = some oli.PricebookEntryId ∧
        pbe.Product2Id = some oli.Product2Id) ∧
    (∀ id : String, (generateSampleOLIs ids entries re rq rp).countP
        (fun o => o.OpportunityId == id) = FIXED_OLI_COUNT * ids.count id) := by
  have hids' : ids.isEmpty = false := by
    cases ids with
    | nil => exact absurd rfl hids
    | cons a t => rfl
  have hne' : entries.isEmpty = false := by
    cases entries with
    | nil => exact absurd rfl hne
    | cons a t => rfl
  have hrw : generateSampleOLIs ids entries re rq rp =
      genOLIsAux entries re rq rp ids 0 := by
    simp [generateSampleOLIs, hids', hne']
  obtain ⟨h1, h2, h3⟩ := genOLIsAux_spec entries re rq rp hne hvalid hr ids 0
  rw [hrw]
  exact ⟨h1, h2, h3⟩

/-- C7 witness: the theorem applied to two concrete parent ids and one
concrete valid entry, with all random draws 0. -/
theorem c7_oli_generation_witness :
    (generateSampleOLIs ["006A", "006B"] [⟨some "01uA", some "01tA"⟩]
        (fun _ _ => 0) (fun _ _ => 0) (fun _ _ => 0)).length =
      FIXED_OLI_COUNT * 2 ∧
    (∀ oli ∈ generateSampleOLIs ["006A", "006B"] [⟨some "01uA", some "01tA"⟩]
        (fun _ _ => 0) (fun _ _ => 0) (fun _ _ => 0),
      oli.OpportunityId ∈ ["006A", "006B"] ∧
      ∃ pbe ∈ [(⟨some "01uA", some "01tA"⟩ : PricebookEntry)],
        pbe.Id = some oli.PricebookEntryId ∧
        pbe.Product2Id = some oli.Product2Id) := by
  obtain ⟨h1, h2, -⟩ := c7_oli_generation ["006A", "006B"]
    [⟨some "01uA", some "01tA"⟩] (fun _ _ => 0) (fun _ _ => 0) (fun _ _ => 0)
    (by decide) (by decide)
    (by intro e he; simp only [List.mem_singleton] at he; subst he
        exact ⟨rfl, rfl⟩)
    (fun k i => ⟨le_refl 0, by norm_num⟩)
  exact ⟨h1, h2⟩

/-- C2: the dependent OLI bulk stage is attempted only when the parent
bulk stage polled to a successful terminal state whose successful-row
count (processed minus failed) is strictly positive; a propagated poll
error, a parent job with zero processed rows or with processed equal to
failed, a failed successful-results fetch, and an empty extracted
parent-id list each stop the job with the dependent stage never
attempted. -/
theorem c2_dependent_stage_gate (info : JobInfo)
    (successFetch : Except String (List (Option String)))
    (entries : List PricebookEntry) (re rq rp : Nat → Nat → ℚ) :
    (∀ msg, oliStageAttempted (PollResult.error msg) successFetch entries
      re rq rp = false) ∧
    (info.numberRecordsProcessed = 0 ∨
        info.numberRecordsProcessed = info.numberRecordsFailed →
      oliStageAttempted (PollResult.success info) successFetch entries
        re rq rp = false) ∧
    (∀ msg, successFetch = Except.error msg →
      oliStageAttempted (PollResult.success info) successFetch entries
        re rq rp = false) ∧
    (∀ recs, successFetch = Except.ok recs → extractSuccessfulIds recs = [] →
      oliStageAttempted (PollResult.success info) successFetch entries
        re rq rp = false) ∧
    (oliStageAttempted (PollResult.success info) successFetch entries
        re rq rp = true →
      info.numberRecordsFailed ≤ info.numberRecordsProcessed →
      0 < info.numberRecordsProcessed - info.numberRecordsFailed) := by
  refine ⟨fun msg => rfl, ?_, ?_, ?_, ?_⟩
  · intro hcond
    simp only [oliStageAttempted]
    rw [if_pos hcond]
  · intro msg hfe
    subst hfe
    simp only [oliStageAttempted]
    split <;> rfl
  · intro recs hok hids
    subst hok
    simp only [oliStageAttempted]
    split
    · rfl
    · simp [hids]
  · intro h hle
    simp only [oliStageAttempted] at h
    split at h
    · exact absurd h (by simp)
    · rename_i hguard
      omega

/-- C2 witness: the theorem applied to a concrete parent job with 5
processed and 2 failed rows, a fetched successful id, and one valid
entry: the dependent stage is attempted and the successful-row count is
positive. -/
theorem c2_dependent_stage_gate_witness :
    oliStageAttempted (PollResult.success ⟨"JobComplete", "", 5, 2⟩)
        (Except.ok [some "006A"]) [⟨some "01uA", some "01tA"⟩]
        (fun _ _ => 0) (fun _ _ => 0) (fun _ _ => 0) = true ∧
    0 < 5 - 2 := by
  have hatt : oliStageAttempted (PollResult.success ⟨"JobComplete", "", 5, 2⟩)
      (Except.ok [some "006A"]) [⟨some "01uA", some "01tA"⟩]
      (fun _ _ => 0) (fun _ _ => 0) (fun _ _ => 0) = true := by
    simp [oliStageAttempted, extractSuccessfulIds, generateSampleOLIs,
      genOLIsAux, genOLIsFor, mkOLI, truthy, FIXED_OLI_COUNT]
    exact ⟨0, by omega⟩
  exact ⟨hatt,
    (c2_dependent_stage_gate ⟨"JobComplete", "", 5, 2⟩ (Except.ok [some "006A"])
      [⟨some "01uA", some "01tA"⟩] (fun _ _ => 0) (fun _ _ => 0)
      (fun _ _ => 0)).2.2.2.2 hatt (by decide)⟩

/-! ## Quote handler (`src/server/services/quote.js`) -/

/-- `getDiscountForRegion` (quote.js lines 4-16): 10% for NAMER, 15%
for EMEA, 8% for APAC, 5% for any other region. Rates are exact
rationals. -/
def getDiscountForRegion (region : String) : ℚ :=
  if region = "NAMER" then 1/10
  else if region = "EMEA" then 3/20
  else if region = "APAC" then 2/25
  else 1/20

/-- One page returned by the query capability: `records`, `done`, and
the optional continuation marker `nextRecordsUrl`. -/
structure QueryResult (α : Type) where
  records : List α
  done : Bool
  nextRecordsUrl : Option String

/-- `queryAll` (quote.js lines 25-39): start from the first page and,
while the current page is not `done` and carries a truthy
`nextRecordsUrl`, fetch the next page with `queryMore` and concatenate
its records. The oracle `more` lists the successive `queryMore`
results; `none` means the loop demanded a page the oracle does not
have (a rejected `queryMore`, propagated by the catch of line 36). -/
def queryAllFrom {α : Type} : QueryResult α → List (QueryResult α) → Option (List α)
  | r, more =>
    if !r.done && truthy r.nextRecordsUrl then
      match more with
      | [] => none
      | p :: ps =>
        match queryAllFrom p ps with
        | none => none
        | some tl => some (r.records ++ tl)
    else some r.records

/-- `queryAll` on the initial `dataApi.query` result and the stream of
`queryMore` results. -/
def queryAll {α : Type} (first : QueryResult α) (more : List (QueryResult α)) :
    Option (List α) :=
  queryAllFrom first more

/-- A well-formed page chain per the record-store contract: every page
except the last reports `done = false` with a truthy continuation
marker, and the last page reports `done = true`. -/
def WellFormedChain {α : Type} : QueryResult α → List (QueryResult α) → Prop
  | r, [] => r.done = true
  | r, p :: ps =>
      r.done = false ∧ truthy r.nextRecordsUrl = true ∧ WellFormedChain p ps

/-- A child line record of the `OpportunityLineItems` subquery, with
the fields read at quote.js lines 125-127. -/
structure OLIRecord where
  PricebookEntryId : Option String
  Quantity : Option ℚ
  UnitPrice : Option ℚ
  deriving Repr, DecidableEq

/-- A parent opportunity record as consumed by the registration loop of
`handleQuoteMessage` (quote.js lines 90-146): the resolved id, the
close date, and the optional subquery result (`none` models an absent
`subQueryResults.OpportunityLineItems` or missing `records`). -/
structure OppRecord where
  Id : String
  CloseDate : String
  lineItems : Option (List OLIRecord)
  deriving Repr, DecidableEq

/-- A create registered on the unit of work (quote.js lines 108-117 and
133-141). A quote line item is keyed here by the id of the parent
opportunity whose quote reference it holds. -/
inductive CreateReg where
  | quote (oppId : String) (name : String) (pricebook2Id : String)
      (expirationDate : String) (status : String)
  | quoteLineItem (oppId : String) (pbeId : Option String)
      (quantity : Option ℚ) (unitPrice : Option ℚ)
  deriving Repr, DecidableEq

/-- The per-opportunity body of the `opportunities.forEach` loop
(quote.js lines 90-146). A parent without line items is skipped with a
warning (lines 96-99). `expDate` models the close-date arithmetic of
lines 104-105 and 114 (`new Date(CloseDate)` plus 30 days rendered as
an ISO date); `none` models the `RangeError` thrown by `toISOString`
on an invalid date, raised while evaluating the fields of the first
`registerCreate`, so the per-parent catch (line 143) leaves nothing
registered for that parent. Otherwise one Quote create and one
QuoteLineItem create per line item are registered, each line price
scaled by `1 - validDiscount` with the discount obtained from
`getDiscountForRegion('NAMER')` (lines 107 and 129-141). -/
def processOpportunity (standardPricebookId : String)
    (expDate : String → Option String) (opp : OppRecord) : List CreateReg :=
  match opp.lineItems with
  | none => []
  | some [] => []
  | some lis =>
    match expDate opp.CloseDate with
    | none => []
    | some ed =>
      let discount := getDiscountForRegion "NAMER"
      let validDiscount := if 0 ≤ discount ∧ discount ≤ 1 then discount else 0
      CreateReg.quote opp.Id "New Quote" standardPricebookId ed "Draft" ::
        lis.map (fun oli =>
          CreateReg.quoteLineItem opp.Id oli.PricebookEntryId oli.Quantity
            (match oli.UnitPrice with
             | none => none
             | some p => some (p * (1 - validDiscount))))

/-- The registration phase of `handleQuoteMessage` over the fetched
opportunity list: the creates registered on the single unit of work,
in registration order. -/
def handleQuoteRegs (standardPricebookId : String)
    (expDate : String → Option String) : List OppRecord → List CreateReg
  | [] => []
  | o :: rest =>
      processOpportunity standardPricebookId expDate o ++
        handleQuoteRegs standardPricebookId expDate rest

/-- The parent id a registered create refers to. -/
def CreateReg.refOppId : CreateReg → String
  | CreateReg.quote oppId _ _ _ _ => oppId
  | CreateReg.quoteLineItem oppId _ _ _ => oppId

/-- C5: for every query issued through `queryAll` whose page chain is
well formed (every page before the last reports not-done with a truthy
continuation marker, the last reports done), the pagination loop is
followed to the last page and the returned list is the concatenation of
the records of the initial page and of every continuation page, in
order — never a truncation. -/
theorem c5_query_all_pagination {α : Type} (first : QueryResult α)
    (more : List (QueryResult α)) (h : WellFormedChain first more) :
    queryAll first more =
      some (((first :: more).map (fun r => r.records)).flatten) := by
  unfold queryAll
  induction more generalizing first with
  | nil =>
    have hd : first.done = true := h
    simp [queryAllFrom, hd]
  | cons p ps ih =>
    obtain ⟨hd, hurl, hrest⟩ := h
    have hih := ih p hrest
    unfold queryAll at hih
    simp [queryAllFrom, hd, hurl, hih]

/-- The two pages of the C5 witness chain. -/
def c5Page1 : QueryResult String := ⟨["a"], false, some "nextUrl"⟩

/-- Final page of the C5 witness chain. -/
def c5Page2 : QueryResult String := ⟨["b", "c"], true, none⟩

/-- C5 witness: the theorem applied to a concrete two-page chain. -/
theorem c5_query_all_pagination_witness :
    queryAll c5Page1 [c5Page2] =
      some (((c5Page1 :: [c5Page2]).map (fun r => r.records)).flatten) :=
  c5_query_all_pagination c5Page1 [c5Page2] ⟨rfl, rfl, rfl⟩

theorem processOpportunity_refOppId (sp : String)
    (ed : String → Option String) (o : OppRecord) :
    ∀ c ∈ processOpportunity sp ed o,
      o.lineItems.getD [] ≠ [] ∧ c.refOppId = o.Id := by
  intro c hc
  match hli : o.lineItems with
  | none => simp [processOpportunity, hli] at hc
  | some [] => simp [processOpportunity, hli] at hc
  | some (x :: xs) =>
    simp only [processOpportunity, hli] at hc
    match hed : ed o.CloseDate with
    | none => rw [hed] at hc; simp at hc
    | some d =>
      rw [hed] at hc
      simp only [List.mem_cons] at hc
      rcases hc with rfl | hc
      · exact ⟨by simp [hli], rfl⟩
      · simp only [List.mem_map] at hc
        obtain ⟨oli, -, rfl⟩ := hc
        exact ⟨by simp [hli], rfl⟩

/-- C8: a parent record with no child line records (absent subquery
result or an empty record list) is skipped: it registers nothing, the
whole registration phase equals the one over only the parents that do
have child lines, and every registered create refers to a parent with
at least one child line. -/
theorem c8_zero_line_parents_skipped (sp : String)
    (expDate : String → Option String) (opp : OppRecord)
    (opps : List OppRecord) :
    (opp.lineItems = none ∨ opp.lineItems = some [] →
      processOpportunity sp expDate opp = []) ∧
    handleQuoteRegs sp expDate opps =
      handleQuoteRegs sp expDate
        (opps.filter (fun o => !(o.lineItems.getD []).isEmpty)) ∧
    (∀ c ∈ handleQuoteRegs sp expDate opps, ∃ o ∈ opps,
      o.lineItems.getD [] ≠ [] ∧ c.refOppId = o.Id) := by
  refine ⟨?_, ?_, ?_⟩
  · rintro (h | h) <;> simp [processOpportunity, h]
  · induction opps with
    | nil => rfl
    | cons o rest ih =>
      by_cases hk : (o.lineItems.getD []).isEmpty = true
      · have hproc : processOpportunity sp expDate o = [] := by
          match hli : o.lineItems with
          | none => simp [processOpportunity, hli]
          | some [] => simp [processOpportunity, hli]
          | some (x :: xs) => rw [hli] at hk; simp at hk
        simp [handleQuoteRegs, List.filter_cons, hk, hproc, ih]
      · simp [handleQuoteRegs, List.filter_cons, hk, ih]
  · induction opps with
    | nil => intro c hc; cases hc
    | cons o rest ih =>
      intro c hc
      rcases List.mem_append.mp hc with h | h
      · obtain ⟨hne, hid⟩ := processOpportunity_refOppId sp expDate o c h
        exact ⟨o, List.mem_cons_self o rest, hne, hid⟩
      · obtain ⟨o', ho', hne, hid⟩ := ih c h
        exact ⟨o', List.mem_cons_of_mem o ho', hne, hid⟩

/-- C8 witness: the theorem applied to a concrete parent with an absent
subquery result, among one parent that does have a line. -/
theorem c8_zero_line_parents_skipped_witness :
    processOpportunity "01sA" (fun _ => some "2026-01-31")
      ⟨"006A", "2026-01-01", none⟩ = [] ∧
    handleQuoteRegs "01sA" (fun _ => some "2026-01-31")
        [⟨"006A", "2026-01-01", none⟩] =
      handleQuoteRegs "01sA" (fun _ => some "2026-01-31")
        ([⟨"006A", "2026-01-01", none⟩].filter
          (fun o => !(o.lineItems.getD []).isEmpty)) := by
  obtain ⟨h1, h2, -⟩ := c8_zero_line_parents_skipped "01sA"
    (fun _ => some "2026-01-31") ⟨"006A", "2026-01-01", none⟩
    [⟨"006A", "2026-01-01", none⟩]
  exact ⟨h1 (Or.inl rfl), h2⟩

theorem discount_bounds (region : String) :
    0 ≤ getDiscountForRegion region ∧ getDiscountForRegion region ≤ 1 := by
  unfold getDiscountForRegion
  split_ifs <;> norm_num

theorem namer_discount : getDiscountForRegion "NAMER" = 1/10 := by
  simp [getDiscountForRegion]

theorem validDiscount_namer :
    (if 0 ≤ getDiscountForRegion "NAMER" ∧ getDiscountForRegion "NAMER" ≤ 1
      then getDiscountForRegion "NAMER" else 0) = getDiscountForRegion "NAMER" := by
  rw [if_pos (discount_bounds "NAMER")]

/-- Every quote line item registered by the loop comes from a child
line of one of the input parents, with the same entry id and quantity
and the unit price scaled by `1 - getDiscountForRegion "NAMER"`. -/
theorem processOpportunity_line_spec (sp : String)
    (ed : String → Option String) (o : OppRecord) :
    ∀ c ∈ processOpportunity sp ed o, ∀ oppId pbe qty price,
      c = CreateReg.quoteLineItem oppId pbe qty price →
      oppId = o.Id ∧ ∃ oli ∈ o.lineItems.getD [],
        pbe = oli.PricebookEntryId ∧ qty = oli.Quantity ∧
        price = oli.UnitPrice.map
          (fun p => p * (1 - getDiscountForRegion "NAMER")) := by
  intro c hc oppId pbe qty price hline
  match hli : o.lineItems with
  | none => simp [processOpportunity, hli] at hc
  | some [] => simp [processOpportunity, hli] at hc
  | some (x :: xs) =>
    simp only [processOpportunity, hli] at hc
    match hed : ed o.CloseDate with
    | none => rw [hed] at hc; simp at hc
    | some d =>
      rw [hed] at hc
      simp only [List.mem_cons] at hc
      rcases hc with rfl | hc
      · cases hline
      · simp only [List.mem_map] at hc
        obtain ⟨oli, hmem, hform⟩ := hc
        rw [← hform] at hline
        cases hline
        refine ⟨rfl, oli, by simpa [hli] using hmem, rfl, rfl, ?_⟩
        cases holi : oli.UnitPrice with
        | none => simp
        | some p => simp [validDiscount_namer]

theorem handleQuoteRegs_line_spec (sp : String)
    (ed : String → Option String) (opps : List OppRecord) :
    ∀ c ∈ handleQuoteRegs sp ed opps, ∀ oppId pbe qty price,
      c = CreateReg.quoteLineItem oppId pbe qty price →
      ∃ o ∈ opps, oppId = o.Id ∧ ∃ oli ∈ o.lineItems.getD [],
        pbe = oli.PricebookEntryId ∧ qty = oli.Quantity ∧
        price = oli.UnitPrice.map
          (fun p => p * (1 - getDiscountForRegion "NAMER")) := by
  induction opps with
  | nil => intro c hc; cases hc
  | cons o rest ih =>
    intro c hc oppId pbe qty price hline
    rcases List.mem_append.mp hc with h | h
    · obtain ⟨hid, holi⟩ :=
        processOpportunity_line_spec sp ed o c h oppId pbe qty price hline
      exact ⟨o, List.mem_cons_self o rest, hid, holi⟩
    · obtain ⟨o', ho', hrest⟩ := ih c h oppId pbe qty price hline
      exact ⟨o', List.mem_cons_of_mem o ho', hrest⟩

/-- C4: every discount rate produced by the region-keyed policy lies in
`[0, 1]` (NAMER 1/10, EMEA 3/20, APAC 2/25, default 1/20), and every
registered quote line item writes as its unit price the original child
line unit price multiplied exactly by `1 - r`, where `r` is the rate
the handler applied. -/
theorem c4_discount_bounds_and_price (sp : String)
    (ed : String → Option String) (opps : List OppRecord) :
    (∀ region, 0 ≤ getDiscountForRegion region ∧
      getDiscountForRegion region ≤ 1) ∧
    (getDiscountForRegion "NAMER" = 1/10 ∧ getDiscountForRegion "EMEA" = 3/20 ∧
      getDiscountForRegion "APAC" = 2/25 ∧ getDiscountForRegion "OTHER" = 1/20) ∧
    (∀ c ∈ handleQuoteRegs sp ed opps, ∀ oppId pbe qty price,
      c = CreateReg.quoteLineItem oppId pbe qty price →
      ∃ o ∈ opps, oppId = o.Id ∧ ∃ oli ∈ o.lineItems.getD [],
        pbe = oli.PricebookEntryId ∧ qty = oli.Quantity ∧
        price = oli.UnitPrice.map
          (fun p => p * (1 - getDiscountForRegion "NAMER"))) := by
  refine ⟨discount_bounds, ⟨?_, ?_, ?_, ?_⟩, handleQuoteRegs_line_spec sp ed opps⟩
    <;> simp [getDiscountForRegion]

/-- Opportunity used by the C4 and C10 witnesses: one child line with
unit price 0. -/
def c4Opp : OppRecord := ⟨"006A", "2026-01-01", some [⟨some "01uA", some 2, some 0⟩]⟩

/-- The quote line item registered for `c4Opp`. -/
def c4Line : CreateReg :=
  CreateReg.quoteLineItem "006A" (some "01uA") (some 2) (some 0)

theorem c4Line_mem :
    c4Line ∈ handleQuoteRegs "01sA" (fun _ => some "2026-01-31") [c4Opp] := by
  simp [handleQuoteRegs, processOpportunity, c4Opp, c4Line, getDiscountForRegion]

/-- C4 witness: the theorem applied to the concrete registration run of
`c4Opp`. -/
theorem c4_discount_bounds_and_price_witness :
    (0 ≤ getDiscountForRegion "EMEA" ∧ getDiscountForRegion "EMEA" ≤ 1) ∧
    ∃ o ∈ [c4Opp], "006A" = o.Id ∧ ∃ oli ∈ o.lineItems.getD [],
      (some "01uA" : Option String) = oli.PricebookEntryId ∧
      (some 2 : Option ℚ) = oli.Quantity ∧
      (some 0 : Option ℚ) = oli.UnitPrice.map
        (fun p => p * (1 - getDiscountForRegion "NAMER")) := by
  obtain ⟨hb, -, hline⟩ := c4_discount_bounds_and_price "01sA"
    (fun _ => some "2026-01-31") [c4Opp]
  exact ⟨hb "EMEA", hline c4Line c4Line_mem "006A" (some "01uA") (some 2)
    (some 0) rfl⟩

/-- C10: `handleQuoteMessage` calls the discount policy with the fixed
region literal `NAMER` (quote.js line 107) — the fetched records carry
no region field at all — so the applied rate is the constant `1/10` and
every registered quote line item is priced at the original unit price
times `1 - 1/10`, whatever the parent records contain. -/
theorem c10_fixed_region_discount (sp : String)
    (ed : String → Option String) (opps : List OppRecord) :
    getDiscountForRegion "NAMER" = 1/10 ∧
    (∀ c ∈ handleQuoteRegs sp ed opps, ∀ oppId pbe qty price,
      c = CreateReg.quoteLineItem oppId pbe qty price →
      ∃ o ∈ opps, ∃ oli ∈ o.lineItems.getD [],
        price = oli.UnitPrice.map (fun p => p * (1 - 1/10))) := by
  refine ⟨namer_discount, ?_⟩
  intro c hc oppId pbe qty price hline
  obtain ⟨o, ho, -, oli, hmem, -, -, hprice⟩ :=
    handleQuoteRegs_line_spec sp ed opps c hc oppId pbe qty price hline
  exact ⟨o, ho, oli, hmem, by rwa [namer_discount] at hprice⟩

/-- C10 witness: the theorem applied to the concrete registration run
of `c4Opp`. -/
theorem c10_fixed_region_discount_witness :
    getDiscountForRegion "NAMER" = 1/10 ∧
    ∃ o ∈ [c4Opp], ∃ oli ∈ o.lineItems.getD [],
      (some 0 : Option ℚ) = oli.UnitPrice.map (fun p => p * (1 - 1/10)) := by
  obtain ⟨hr, hline⟩ := c10_fixed_region_discount "01sA"
    (fun _ => some "2026-01-31") [c4Opp]
  exact ⟨hr, hline c4Line c4Line_mem "006A" (some "01uA") (some 2)
    (some 0) rfl⟩

/-! ## Worker dispatcher (`src/server/worker.js`): `handleJobMessage` -/

/-- The acting-user part of the security context
(`context.org.user`). -/
structure UserCtx where
  id : Option String
  username : Option String
  deriving Repr, DecidableEq

/-- The org part of the security context (`context.org`). The source
field `namespace` is embedded as `nspace` (`namespace` is a reserved
word here). -/
structure OrgCtx where
  accessToken : Option String
  apiVersion : Option String
  id : Option String
  nspace : Option String
  domainUrl : Option String
  user : Option UserCtx
  deriving Repr, DecidableEq

/-- The `context` member of a job envelope. -/
structure JobContext where
  org : Option OrgCtx
  requestId : Option String
  deriving Repr, DecidableEq

/-- A parsed job envelope: the fields `handleJobMessage` destructures
(worker.js line 27). -/
structure Envelope where
  jobId : Option String
  context : Option JobContext
  jobType : Option String
  deriving Repr, DecidableEq

/-- Observable outcome of one delivery through `handleJobMessage`. -/
inductive DispatchOutcome where
  | ignored
  | parseFailure
  | droppedMissingContext
  | routedQuote
  | routedData
  | unknownType
  deriving Repr, DecidableEq

/-- `JOBS_CHANNEL` (worker.js line 6). -/
def JOBS_CHANNEL : String := "jobsChannel"

/-- The context check of worker.js line 31:
`!context || !context.org || !context.org.accessToken ||
!context.org.domainUrl` — only the presence (truthiness) of the
access token and of the base URL is checked. -/
def contextValid (context : Option JobContext) : Bool :=
  match context with
  | none => false
  | some c =>
    match c.org with
    | none => false
    | some o => truthy o.accessToken && truthy o.domainUrl

/-- `handleJobMessage` (worker.js lines 13-63) as a function of the
channel name and the parse result of the message (`none` is a JSON
parse failure). -/
def handleJobMessage (channel : String) (message : Option Envelope) :
    DispatchOutcome :=
  if channel ≠ JOBS_CHANNEL then DispatchOutcome.ignored
  else
    match message with
    | none => DispatchOutcome.parseFailure
    | some env =>
      if contextValid env.context = false then
        DispatchOutcome.droppedMissingContext
      else if env.jobType = some "quote" then DispatchOutcome.routedQuote
      else if env.jobType = some "data" then DispatchOutcome.routedData
      else DispatchOutcome.unknownType

/-- The claim-side notion of a fully populated security context
(spec §3: access token, API version, tenant/org identifier, namespace,
acting-user identity, base URL all present). Stated from the words of
the spec for comparison against `contextValid`. -/
def specFullyPopulatedContext (context : Option JobContext) : Bool :=
  match context with
  | none => false
  | some c =>
    match c.org with
    | none => false
    | some o =>
      truthy o.accessToken && truthy o.apiVersion && truthy o.id &&
        truthy o.nspace && truthy o.domainUrl &&
        (match o.user with
         | none => false
         | some u => truthy u.id)

/-- A partially populated context: only the access token and the base
URL are present. -/
def c3PartialContext : JobContext :=
  { org := some
      { accessToken := some "00Dxx-token"
        apiVersion := none
        id := none
        nspace := none
        domainUrl := some "https://example.my.salesforce.com"
        user := none }
    requestId := none }

/-- An envelope carrying `c3PartialContext` and `jobType = data`. -/
def c3PartialEnv : Envelope :=
  { jobId := some "job-1", context := some c3PartialContext,
    jobType := some "data" }

/-- C3, counterexample to the claim as stated: an envelope whose
security context lacks the API version, the org identifier, the
namespace and the acting-user identity — not fully populated — is
nevertheless routed to the data handler rather than dropped. -/
theorem c3_partial_context_routed :
    handleJobMessage JOBS_CHANNEL (some c3PartialEnv) =
      DispatchOutcome.routedData ∧
    specFullyPopulatedContext c3PartialEnv.context = false := by
  constructor
  · decide
  · decide

/-- C3 (amended): for every message that parses, the dispatcher checks
only that the security context is present with a truthy access token
and a truthy base URL (`domainUrl`); envelopes failing that check are
dropped without invoking a handler, and a handler is invoked only for
envelopes passing it. The remaining sub-fields (API version, org id,
namespace, acting-user identity) are not validated. -/
theorem c3_context_validation (message : Option Envelope) :
    (∀ ch, ch ≠ JOBS_CHANNEL →
      handleJobMessage ch message = DispatchOutcome.ignored) ∧
    (handleJobMessage JOBS_CHANNEL none = DispatchOutcome.parseFailure) ∧
    (∀ env, message = some env → contextValid env.context = false →
      handleJobMessage JOBS_CHANNEL message =
        DispatchOutcome.droppedMissingContext) ∧
    (∀ env, message = some env →
      (contextValid env.context = true ↔
        ∃ c o, env.context = some c ∧ c.org = some o ∧
          truthy o.accessToken = true ∧ truthy o.domainUrl = true)) ∧
    (∀ env, message = some env →
      (handleJobMessage JOBS_CHANNEL message = DispatchOutcome.routedQuote ∨
       handleJobMessage JOBS_CHANNEL message = DispatchOutcome.routedData) →
      contextValid env.context = true) := by
  refine ⟨?_, rfl, ?_, ?_, ?_⟩
  · intro ch hch
    simp [handleJobMessage, hch]
  · intro env henv hctx
    subst henv
    simp [handleJobMessage, JOBS_CHANNEL, hctx]
  · intro env henv
    subst henv
    cases hctx : env.context with
    | none => simp [contextValid, hctx]
    | some c =>
      cases horg : c.org with
      | none => simp [contextValid, hctx, horg]
      | some o =>
        simp only [contextValid, hctx, horg, Bool.and_eq_true]
        constructor
        · rintro ⟨h1, h2⟩
          exact ⟨c, o, rfl, horg, h1, h2⟩
        · rintro ⟨c', o', hc', ho', h1, h2⟩
          cases hc'
          rw [horg] at ho'
          cases ho'
          exact ⟨h1, h2⟩
  · intro env henv hrouted
    subst henv
    by_contra hvalid
    have hfalse : contextValid env.context = false := by
      cases h : contextValid env.context
      · rfl
      · exact absurd h hvalid
    have : handleJobMessage JOBS_CHANNEL (some env) =
        DispatchOutcome.droppedMissingContext := by
      simp [handleJobMessage, JOBS_CHANNEL, hfalse]
    rcases hrouted with h | h <;> rw [this] at h <;> cases h

/-- C3 witness: the amended theorem applied to a concrete envelope with
no context at all (it is dropped) and to `c3PartialEnv` (whose context
passes the amended check). -/
theorem c3_context_validation_witness :
    handleJobMessage JOBS_CHANNEL
        (some ⟨some "job-2", none, some "quote"⟩) =
      DispatchOutcome.droppedMissingContext ∧
    contextValid c3PartialEnv.context = true := by
  constructor
  · exact (c3_context_validation
      (some ⟨some "job-2", none, some "quote"⟩)).2.2.1
      ⟨some "job-2", none, some "quote"⟩ rfl rfl
  · exact ((c3_context_validation (some c3PartialEnv)).2.2.2.1
      c3PartialEnv rfl).mpr
      ⟨c3PartialContext, _, rfl, rfl, rfl, rfl⟩

end OrgJob
